import Mathlib

/-!
Verification development for the rigid-body fragment docking engine of
`SetUp/add_ligand/add_ligand.py`.

The Python source works on numpy arrays of floats; we embed it shallowly
over `ℝ`.  Points are `Vec3` records, atom coordinate arrays are
`List Vec3`, label arrays are `List String`.  Python's `math.sqrt` raises
`ValueError` on a negative argument, so every operation of the source that
feeds a computed quantity into `math.sqrt` is embedded as an
`Option`-returning function whose `none` result models that exception;
inside the defined region the value is `Real.sqrt` of the same argument.
-/

/-- A 3-vector of reals, standing for one row of a numpy `(n,3)` array. -/
@[ext] structure Vec3 where
  x : ℝ
  y : ℝ
  z : ℝ

/-- Componentwise vector addition (numpy `+`). -/
def Vec3.add (u v : Vec3) : Vec3 := ⟨u.x + v.x, u.y + v.y, u.z + v.z⟩

/-- Componentwise vector subtraction (numpy `-`). -/
def Vec3.sub (u v : Vec3) : Vec3 := ⟨u.x - v.x, u.y - v.y, u.z - v.z⟩

/-- Componentwise negation (numpy unary `-`). -/
def Vec3.neg (u : Vec3) : Vec3 := ⟨-u.x, -u.y, -u.z⟩

/-- Scalar multiplication of a vector (numpy scalar `*`). -/
def Vec3.smul (t : ℝ) (u : Vec3) : Vec3 := ⟨t * u.x, t * u.y, t * u.z⟩

/-- `np.dot` of two 3-vectors. -/
def Vec3.dot (u v : Vec3) : ℝ := u.x * v.x + u.y * v.y + u.z * v.z

/-- `np.cross` of two 3-vectors. -/
def Vec3.cross (u v : Vec3) : Vec3 :=
  ⟨u.y * v.z - u.z * v.y, u.z * v.x - u.x * v.z, u.x * v.y - u.y * v.x⟩

/-- The zero vector. -/
def Vec3.zero : Vec3 := ⟨0, 0, 0⟩

/-- `np.mean(coord, axis=0)`: the unweighted componentwise mean of a list of
points (`0` on the empty list, which the constructor rules out). -/
noncomputable def vmean (l : List Vec3) : Vec3 :=
  ⟨(l.map Vec3.x).sum / l.length, (l.map Vec3.y).sum / l.length,
   (l.map Vec3.z).sum / l.length⟩

/-- `scipy.special.expit`, the logistic sigmoid `x ↦ 1/(1+exp(-x))`. -/
noncomputable def expit (x : ℝ) : ℝ := 1 / (1 + Real.exp (-x))

/-- Componentwise `expit` of a parameter 3-vector (`expit(rots)` on a numpy
array maps each entry). -/
noncomputable def expitV (v : Vec3) : Vec3 := ⟨expit v.x, expit v.y, expit v.z⟩

/-- The Euler-Rodrigues rotation of a single point, following
`Fragment.rotate_frag`: with `aa = 1 - rots·rots`, `a = sqrt(aa)` and the
products `bb ... cd` of the source, the rotated point is `r_mat @ v`
(the source computes `np.dot(coord, r_mat.T)`, which applies `r_mat` to each
row).  `Real.sqrt` is total; callers perform the `aa ≥ 0` domain check that
models `math.sqrt`'s `ValueError`. -/
noncomputable def rotate_frag_point (rots v : Vec3) : Vec3 :=
  let aa := 1 - Vec3.dot rots rots
  let a := Real.sqrt aa
  let bb := rots.x * rots.x
  let cc := rots.y * rots.y
  let dd := rots.z * rots.z
  let bc := rots.x * rots.y
  let ad := a * rots.z
  let ac := a * rots.y
  let ab := a * rots.x
  let bd := rots.x * rots.z
  let cd := rots.y * rots.z
  ⟨(aa + bb - cc - dd) * v.x + (2 * (bc + ad)) * v.y + (2 * (bd - ac)) * v.z,
   (2 * (bc - ad)) * v.x + (aa + cc - bb - dd) * v.y + (2 * (cd + ab)) * v.z,
   (2 * (bd + ac)) * v.x + (2 * (cd - ab)) * v.y + (aa + dd - bb - cc) * v.z⟩

/-- The state of one `Fragment` object after construction: the main
coordinate rows and labels (connector removed), the extracted connection
point, the cached convex-hull rows and labels, and the `guess_hull`
attribute written by `score_rotation`. -/
structure Fragment where
  coord : List Vec3
  at_labels : List String
  connect : Vec3
  hull : List Vec3
  hull_ats : List String
  guess_hull : List Vec3

/-- `self.precision = 1e-5`, set once in `Fragment.__init__`. -/
noncomputable def precision : ℝ := 1e-5

/-- `z = np.array([0,0,1])`, the fixed reference axis of `orient_frag`. -/
def zvec : Vec3 := ⟨0, 0, 1⟩

/-- `Fragment.__len__`: the number of hull points. -/
def Fragment.size (f : Fragment) : Nat := f.hull.length

/-- `Fragment.rotate`: sets `coord` and `connect` to their rotated values via
`rotate_frag`.  `none` models the `ValueError` that `math.sqrt(aa)` raises
when `1 - rots·rots < 0`.  Note the cached hull is NOT touched. -/
noncomputable def Fragment.rotate (f : Fragment) (rots : Vec3) : Option Fragment :=
  if 0 ≤ 1 - Vec3.dot rots rots then
    some { f with coord := f.coord.map (rotate_frag_point rots),
                  connect := rotate_frag_point rots f.connect }
  else none

/-- `Fragment.shift_origin`: adds `-new_origin` to `coord` and `connect`.
Note the cached hull is NOT touched. -/
def Fragment.shift_origin (f : Fragment) (new_origin : Vec3) : Fragment :=
  { f with coord := f.coord.map (fun p => Vec3.sub p new_origin),
           connect := Vec3.sub f.connect new_origin }

/-- `Fragment.orient_frag`: shift the origin to the centre of volume, then
rotate so the connection point aligns with the z axis, with
`sin_rot = sqrt((1 - connect·z/con_mag)/2)` and rotation parameters
`cross(z, connect)/con_mag * sin_rot`.  `none` models the `ValueError`
raised by either `math.sqrt` call (the `sin_rot` argument below, or
`aa < 0` inside `rotate`). -/
noncomputable def Fragment.orient_frag (f : Fragment) : Option Fragment :=
  let cov := vmean f.coord
  let f1 := f.shift_origin cov
  let con_mag := Vec3.dot f1.connect f1.connect
  if con_mag < precision then some f1
  else
    let arg := (1 - Vec3.dot f1.connect zvec / con_mag) / 2
    if arg < 0 then none
    else
      let sin_rot := Real.sqrt arg
      let rots := Vec3.smul sin_rot (Vec3.smul (1 / con_mag) (Vec3.cross zvec f1.connect))
      f1.rotate rots

/-- One row of the MMFF94 van-der-Waals parameter table: the
`atom = namedtuple('atom', 'polar, eff_ele, sep_fact, dep_fact')` record. -/
structure AtomPar where
  polar : ℝ
  eff_ele : ℝ
  sep_fact : ℝ
  dep_fact : ℝ

/-- The `'Fe'` entry of the table, which `_sep_MMFF94` and `_depth_MMFF94`
substitute for any label that raises `KeyError`. -/
noncomputable def fe_par : AtomPar := ⟨0.45, 6, 4, 1.4⟩

/-- `ForceField.at_dict` as filled in by `_init_MMFF94`; `none` models a
`KeyError` on lookup. -/
noncomputable def at_dict : String → Option AtomPar
  | "H" => some ⟨0.250, 0.800, 4.200, 1.209⟩
  | "Li" => some ⟨0.15, 2, 4, 1.3⟩
  | "C" => some ⟨1.050, 2.490, 3.890, 1.282⟩
  | "N" => some ⟨0.15, 2.820, 3.890, 1.282⟩
  | "O" => some ⟨0.70, 3.150, 3.890, 1.282⟩
  | "F" => some ⟨0.35, 3.480, 3.890, 1.282⟩
  | "Na" => some ⟨0.4, 3.5, 4, 1.3⟩
  | "Mg" => some ⟨0.35, 3.5, 4, 1.3⟩
  | "P" => some ⟨3.600, 4.500, 3.320, 1.345⟩
  | "S" => some ⟨3.00, 4.800, 3.320, 1.345⟩
  | "Cl" => some ⟨2.300, 5.100, 3.320, 1.345⟩
  | "K" => some ⟨1.0, 5, 4, 1.3⟩
  | "Ca" => some ⟨0.9, 5, 4, 1.4⟩
  | "Fe" => some fe_par
  | "Cu" => some ⟨0.35, 6, 4, 1.4⟩
  | "Zn" => some ⟨0.43, 6, 4, 1.4⟩
  | "Br" => some ⟨3.400, 6.000, 3.190, 1.359⟩
  | "I" => some ⟨5.500, 6.950, 3.080, 1.404⟩
  | _ => none

/-- Table lookup with the `try/except KeyError` fallback to the `'Fe'`
entry used throughout the force field. -/
noncomputable def ff_lookup (label : String) : AtomPar := (at_dict label).getD fe_par

/-- `ForceField._sep_MMFF94`: minimum-energy separation of the labelled pair,
with identical labels returning `r1` directly and differing labels combined
by the MMFF94 mixing rule with `b = .2`, `beta = 12`. -/
noncomputable def sep_MMFF94 (label0 label1 : String) : ℝ :=
  let r1 := (ff_lookup label0).sep_fact * (ff_lookup label0).polar
  if label0 = label1 then r1
  else
    let r2 := (ff_lookup label1).sep_fact * (ff_lookup label1).polar
    let b : ℝ := 0.2
    let beta : ℝ := 12
    let gam12 := (r1 - r2) / (r1 + r2)
    0.5 * (r1 + r2) * (1 + b * (1 - Real.exp (-beta * gam12 ^ 2)))

/-- `ForceField._depth_MMFF94`: the well depth, with the source's exact
parenthesisation (`sep**6` multiplies only the second square root). -/
noncomputable def depth_MMFF94 (label0 label1 : String) (sep : ℝ) : ℝ :=
  let g1 := (ff_lookup label0).dep_fact
  let p1 := (ff_lookup label0).polar
  let n1 := (ff_lookup label0).eff_ele
  let g2 := (ff_lookup label1).dep_fact
  let p2 := (ff_lookup label1).polar
  let n2 := (ff_lookup label1).eff_ele
  181.16 * g1 * g2 * p1 * p2
    / (Real.sqrt (p1 / n1) + Real.sqrt (p2 / n2) * sep ^ 6)

/-- `ForceField._inter_MMFF94`: the van-der-Waals interaction energy of a
labelled pair at distance `dist` (the buffered 7-14 form of MMFF94). -/
noncomputable def inter_MMFF94 (dist : ℝ) (label0 label1 : String) : ℝ :=
  let sep := sep_MMFF94 label0 label1
  let w_depth := depth_MMFF94 label0 label1 sep
  w_depth * (1.07 * sep / (dist + 0.07 * sep)) ^ 7
    * (1.12 * sep ^ 7 / (dist ^ 7 + 0.12 * sep ^ 7) - 2)

/-- The label substitution the `try/except KeyError` blocks amount to: a
label absent from `at_dict` behaves as the default heavy-atom label `'Fe'`. -/
noncomputable def subFe (label : String) : String :=
  if (at_dict label).isSome then label else "Fe"

/-- `calc_dists(s_frag, f_frag, cut)`: for every cross pair of hull points
(the double loop over `range(len(s_frag))` and `range(len(f_frag))`, where
`len` is the hull size) with squared separation `dist > cut**2`, record
`sqrt(dist)` and the label pair; return the parallel `dists`/`labels`
arrays. -/
noncomputable def calc_dists (s_frag f_frag : Fragment) (cut : ℝ) :
    List ℝ × List (String × String) :=
  let entries := (s_frag.hull.zip s_frag.hull_ats).flatMap (fun pi =>
    (f_frag.hull.zip f_frag.hull_ats).filterMap (fun pj =>
      let dist := Vec3.dot (Vec3.sub pi.1 pj.1) (Vec3.sub pi.1 pj.1)
      if dist > cut ^ 2 then some (Real.sqrt dist, (pi.2, pj.2)) else none))
  (entries.map Prod.fst, entries.map Prod.snd)

/-- Stated from the spec's words for comparison with `calc_dists`: the list
of all cross-fragment hull-point/label pairs whose separation exceeds the
cutoff (squared form, as the separations are compared before the square
root is taken). -/
noncomputable def spec_pairs (s_frag f_frag : Fragment) (cut : ℝ) :
    List ((Vec3 × String) × (Vec3 × String)) :=
  ((s_frag.hull.zip s_frag.hull_ats).product (f_frag.hull.zip f_frag.hull_ats)).filter
    (fun q => cut ^ 2 < Vec3.dot (Vec3.sub q.1.1 q.2.1) (Vec3.sub q.1.1 q.2.1))

/-- `score_rotation(rots, s_frag, f_frag, f_field)`: squash the parameters
with `expit`, store the rotated hull in `s_frag.guess_hull`, call
`calc_dists(s_frag, f_frag)` (cutoff default 3.0) and sum
`f_field.inter` over the returned pairs.  The result pairs the score with
the mutated `s_frag`; `none` models the `ValueError` from `math.sqrt` inside
`rotate_frag` when `1 - norm_rots·norm_rots < 0`. -/
noncomputable def score_rotation (f_field : ℝ → String → String → ℝ)
    (rots : Vec3) (s_frag f_frag : Fragment) : Option (ℝ × Fragment) :=
  let norm_rots := expitV rots
  if 0 ≤ 1 - Vec3.dot norm_rots norm_rots then
    let s' := { s_frag with guess_hull := s_frag.hull.map (rotate_frag_point norm_rots) }
    let dl := calc_dists s' f_frag 3
    some ((dl.1.zip dl.2).foldl (fun score e => score + f_field e.1 e.2.1 e.2.2) 0, s')
  else none

/-- The initial guess `[0,0,0]` passed to `minimize(score_rotation, ...)` in
`add_ligand`. -/
def x0_add_ligand : Vec3 := ⟨0, 0, 0⟩

/-- The role split in `add_ligand`: `if len(frag1) <= len(frag2)` then
`(s_frag, f_frag) = (frag1, frag2)` else swapped.  `s_frag` is the fragment
whose rotation is searched and finally applied. -/
def add_ligand_roles (frag1 frag2 : Fragment) : Fragment × Fragment :=
  if frag1.size ≤ frag2.size then (frag1, frag2) else (frag2, frag1)

/-- The role split inside `Fragment.align_frags` (called as
`f_frag.align_frags(s_frag, dist)`, so `self` is `f_frag`):
`if len(self) <= len(other_frag)` then `(rot, anchor) = (self, other_frag)`
else swapped.  `rot` is the fragment that is flipped and placed. -/
def align_frags_roles (self other_frag : Fragment) : Fragment × Fragment :=
  if self.size ≤ other_frag.size then (self, other_frag) else (other_frag, self)

/-- `Fragment.__init__` after `read`: find the indices labelled `'X'`
(`np.where(at_labels == 'X')`), assert exactly one, extract the connection
point, delete that row from both arrays, assert the remaining coordinate
list is non-empty, then call `orient_frag`.  The two assertion failures are
the two `ValidationError` cases; the orientation step can itself fail
(`math domain error`).  The subsequent `build_hull` call is a
`scipy.spatial.ConvexHull` library call outside this repository and is not
modelled: the returned fragment carries an empty hull cache. -/
noncomputable def mkFragment (coord : List Vec3) (at_labels : List String) :
    Except String Fragment :=
  if (at_labels.filter (fun l => l = "X")).length = 1 then
    let i := at_labels.findIdx (fun l => l = "X")
    let connect := coord.getD i Vec3.zero
    let coord1 := coord.eraseIdx i
    let labels1 := at_labels.eraseIdx i
    if coord1.length ≠ 0 then
      match Fragment.orient_frag ⟨coord1, labels1, connect, [], [], []⟩ with
      | some g => .ok g
      | none => .error "math domain error"
    else .error "ValidationError: no coordinates"
  else .error "ValidationError: connector count"

/-! ### Concrete fragment values used by witnesses and counterexamples -/

/-- A fragment with no hull points (extreme but legal state of the record). -/
def frag0 : Fragment := ⟨[], [], ⟨0, 0, 0⟩, [], [], []⟩

/-- A fragment with an empty hull but a different connection point, so that
`frag0 ≠ fragT2` while both have hull size 0. -/
def fragT2 : Fragment := ⟨[], [], ⟨1, 0, 0⟩, [], [], []⟩

/-- A fragment with one hull point (hull size 1). -/
def fragB1 : Fragment := ⟨[], [], ⟨0, 0, 0⟩, [⟨0, 0, 0⟩], ["C"], []⟩

/-- A one-atom fragment whose single coordinate is also its hull point. -/
def fragC2 : Fragment := ⟨[⟨0, 0, 0⟩], ["C"], ⟨0, 0, 0⟩, [⟨0, 0, 0⟩], ["C"], []⟩

/-- A one-atom fragment used to witness the rotate/unrotate round trip. -/
def fragC6 : Fragment := ⟨[⟨1, 2, 3⟩], ["C"], ⟨0, 0, 1⟩, [⟨1, 2, 3⟩], ["C"], []⟩

/-- Two atoms centred on the origin with a unit connector tilted out of the
x-y plane: `connect - mean = (24/25, 0, 7/25)`.  On this fragment
`orient_frag` leaves the connector far from the z axis. -/
noncomputable def fragC5cex : Fragment :=
  ⟨[⟨1, 0, 0⟩, ⟨-1, 0, 0⟩], ["H", "H"], ⟨24/25, 0, 7/25⟩, [], [], []⟩

/-- Two atoms centred on the origin with a unit connector along x
(orthogonal to the reference axis): the special case where `orient_frag`
aligns exactly. -/
def fragC5w : Fragment :=
  ⟨[⟨1, 0, 0⟩, ⟨-1, 0, 0⟩], ["H", "H"], ⟨1, 0, 0⟩, [], [], []⟩

/-- Parsed input with one connector at `(0,0,1/2)` and two real atoms: the
validation passes, but the orientation square root gets a negative
argument. -/
noncomputable def cexC9_coord : List Vec3 := [⟨0, 0, 1/2⟩, ⟨1, 0, 0⟩, ⟨-1, 0, 0⟩]

/-- Labels for `cexC9_coord`: exactly one connector. -/
def cexC9_labels : List String := ["X", "H", "H"]

/-! ### Helper lemmas -/

theorem expit_zero : expit 0 = 1 / 2 := by
  simp [expit, Real.exp_zero]
  norm_num

theorem expit_pos (x : ℝ) : 0 < expit x := by
  have := Real.exp_pos (-x)
  unfold expit
  positivity

theorem expit_lt_one (x : ℝ) : expit x < 1 := by
  have h := Real.exp_pos (-x)
  rw [expit, div_lt_one (by linarith)]
  linarith

theorem rotate_frag_point_zero (v : Vec3) : rotate_frag_point ⟨0, 0, 0⟩ v = v := by
  simp only [rotate_frag_point, Vec3.dot]
  ext <;> simp

theorem rotate_frag_point_neg_cancel (p v : Vec3) (h : Vec3.dot p p ≤ 1) :
    rotate_frag_point (Vec3.neg p) (rotate_frag_point p v) = v := by
  have hnn : 0 ≤ 1 - (p.x * p.x + p.y * p.y + p.z * p.z) := by
    simp only [Vec3.dot] at h; linarith
  simp only [rotate_frag_point, Vec3.neg, Vec3.dot]
  rw [show (1 - (-p.x * -p.x + -p.y * -p.y + -p.z * -p.z))
        = (1 - (p.x * p.x + p.y * p.y + p.z * p.z)) from by ring]
  set a := Real.sqrt (1 - (p.x * p.x + p.y * p.y + p.z * p.z)) with ha_def
  have ha : a ^ 2 = 1 - (p.x * p.x + p.y * p.y + p.z * p.z) := Real.sq_sqrt hnn
  simp only [← ha]
  ext
  · show _ = v.x
    linear_combination (v.x * (a ^ 2 + (p.x * p.x + p.y * p.y + p.z * p.z) + 1)) * ha
  · show _ = v.y
    linear_combination (v.y * (a ^ 2 + (p.x * p.x + p.y * p.y + p.z * p.z) + 1)) * ha
  · show _ = v.z
    linear_combination (v.z * (a ^ 2 + (p.x * p.x + p.y * p.y + p.z * p.z) + 1)) * ha

theorem ff_lookup_subFe (l : String) : ff_lookup (subFe l) = ff_lookup l := by
  unfold subFe ff_lookup
  cases h : at_dict l with
  | some a => simp [h]
  | none => simp [h]; rfl

theorem mix_diag (r : ℝ) :
    0.5 * (r + r) * (1 + 0.2 * (1 - Real.exp (-12 * ((r - r) / (r + r)) ^ 2))) = r := by
  have h0 : (r - r) / (r + r) = 0 := by simp
  rw [h0]
  simp [Real.exp_zero]
  ring

theorem sep_subFe (l0 l1 : String) :
    sep_MMFF94 l0 l1 = sep_MMFF94 (subFe l0) (subFe l1) := by
  simp only [sep_MMFF94, ff_lookup_subFe]
  by_cases h : l0 = l1
  · rw [if_pos h, if_pos (by rw [h])]
  · rw [if_neg h]
    by_cases h2 : subFe l0 = subFe l1
    · rw [if_pos h2]
      have he : ff_lookup l0 = ff_lookup l1 := by
        rw [← ff_lookup_subFe l0, h2, ff_lookup_subFe]
      rw [he]
      exact mix_diag _
    · rw [if_neg h2]

theorem depth_subFe (l0 l1 : String) (sep : ℝ) :
    depth_MMFF94 l0 l1 sep = depth_MMFF94 (subFe l0) (subFe l1) sep := by
  simp only [depth_MMFF94, ff_lookup_subFe]

/-- Claim C10: for every distance and every pair of atom labels — including
labels absent from `at_dict` — the interaction energy is the value obtained
by substituting the default heavy-atom (`'Fe'`) entry for each absent label
(`subFe` replaces a label by `"Fe"` exactly when its lookup raises
`KeyError`); in the embedding the function is total, which reflects that the
`try/except KeyError` fallback prevents any exception. -/
theorem inter_MMFF94_default_substitution (dist : ℝ) (l0 l1 : String) :
    inter_MMFF94 dist l0 l1 = inter_MMFF94 dist (subFe l0) (subFe l1) := by
  simp only [inter_MMFF94]
  rw [← sep_subFe, ← depth_subFe]

/-- Claim C3 (corrected, counterexample): the componentwise sigmoid squash
does NOT map every parameter vector into the open unit ball: at
`rots = (2,2,2)` the squashed vector has squared norm above 1, the argument
`1 - |expit rots|²` of the square root in `rotate_frag` is negative, and the
objective evaluation `score_rotation` raises (modelled by `none`) instead of
returning an energy. -/
theorem squash_outside_ball_cex :
    1 - Vec3.dot (expitV ⟨2, 2, 2⟩) (expitV ⟨2, 2, 2⟩) < 0 ∧
    score_rotation inter_MMFF94 ⟨2, 2, 2⟩ frag0 frag0 = none := by
  have he1 : (2.7 : ℝ) < Real.exp 1 := by
    have := Real.exp_one_gt_d9; linarith
  have he2 : (4 : ℝ) < Real.exp 2 := by
    have h2 : Real.exp 2 = Real.exp 1 * Real.exp 1 := by
      rw [← Real.exp_add]; norm_num
    nlinarith
  have hen : Real.exp (-2) < 1 / 4 := by
    have hmul : Real.exp (-2) * Real.exp 2 = 1 := by
      rw [← Real.exp_add]; norm_num
    nlinarith [Real.exp_pos (-2 : ℝ)]
  have hb : 4 / 5 < expit 2 := by
    rw [expit, lt_div_iff (by positivity)]
    nlinarith [Real.exp_pos (-2 : ℝ)]
  have hdot : 1 - Vec3.dot (expitV ⟨2, 2, 2⟩) (expitV ⟨2, 2, 2⟩) < 0 := by
    simp only [expitV, Vec3.dot]
    nlinarith [hb]
  refine ⟨hdot, ?_⟩
  simp only [score_rotation]
  rw [if_neg (by linarith)]

/-- Claim C3 (amended): what the squash does guarantee is the open unit
CUBE: every component of `expitV p` lies strictly between 0 and 1.  This
does not place the vector inside the open unit ball, so the implied fourth
rotation component is not well-defined on every objective evaluation (see
the counterexample). -/
theorem squash_in_unit_cube (p : Vec3) :
    (0 < (expitV p).x ∧ (expitV p).x < 1) ∧
    (0 < (expitV p).y ∧ (expitV p).y < 1) ∧
    (0 < (expitV p).z ∧ (expitV p).z < 1) :=
  ⟨⟨expit_pos _, expit_lt_one _⟩, ⟨expit_pos _, expit_lt_one _⟩,
   ⟨expit_pos _, expit_lt_one _⟩⟩

/-- Claim C4: `add_ligand` does start the minimizer at the zero 3-vector,
but that starting point does not correspond to "no rotation": the objective
squashes it through `expit`, giving parameters `(1/2, 1/2, 1/2)`, whose
Euler-Rodrigues rotation permutes the coordinate axes (it maps `e₁` to
`e₃`), not the identity — contradicting the source comment "Initial guess
corresponds to vector Euler-Rodrigues coefficients of roughly 0, ie. no
rotation". -/
theorem start_rotation_not_identity :
    x0_add_ligand = Vec3.zero ∧
    expitV x0_add_ligand = ⟨1 / 2, 1 / 2, 1 / 2⟩ ∧
    rotate_frag_point (expitV x0_add_ligand) ⟨1, 0, 0⟩ = ⟨0, 0, 1⟩ ∧
    rotate_frag_point (expitV x0_add_ligand) ⟨1, 0, 0⟩ ≠ ⟨1, 0, 0⟩ := by
  have hv : expitV x0_add_ligand = ⟨1 / 2, 1 / 2, 1 / 2⟩ := by
    simp [expitV, x0_add_ligand, expit_zero]
  have ha : Real.sqrt (1 - Vec3.dot ⟨1 / 2, 1 / 2, 1 / 2⟩ (⟨1 / 2, 1 / 2, 1 / 2⟩ : Vec3))
      = 1 / 2 := by
    rw [show (1 - Vec3.dot ⟨1 / 2, 1 / 2, 1 / 2⟩ (⟨1 / 2, 1 / 2, 1 / 2⟩ : Vec3))
          = (1 / 2 : ℝ) ^ 2 from by simp [Vec3.dot]; norm_num]
    exact Real.sqrt_sq (by norm_num)
  have hr : rotate_frag_point (expitV x0_add_ligand) ⟨1, 0, 0⟩ = ⟨0, 0, 1⟩ := by
    rw [hv]
    simp only [rotate_frag_point]
    rw [ha]
    ext <;> simp [Vec3.dot] <;> norm_num
  refine ⟨rfl, hv, hr, ?_⟩
  rw [hr]
  intro hcontra
  have := congrArg Vec3.x hcontra
  norm_num at this

/-- Claim C2 (corrected, counterexample): `shift_origin` does NOT transform
the cached hull in lockstep with the main coordinates: after shifting
`fragC2` by `(1,0,0)`, the hull is unchanged rather than equal to the image
of its pre-transform value under the shift. -/
theorem hull_not_shifted_cex :
    (fragC2.shift_origin ⟨1, 0, 0⟩).hull ≠
      fragC2.hull.map (fun p => Vec3.sub p ⟨1, 0, 0⟩) := by
  simp [fragC2, Fragment.shift_origin, Vec3.sub]

/-- Claim C2 (amended): `rotate` and `shift_origin` update only the main
coordinate array and the connection point; the cached hull points and hull
labels are left untouched, so after any nontrivial transform the hull is
stale relative to the main coordinates. -/
theorem transforms_leave_hull (f : Fragment) (r v : Vec3) (g : Fragment)
    (h : f.rotate r = some g) :
    g.hull = f.hull ∧ g.hull_ats = f.hull_ats ∧
    (f.shift_origin v).hull = f.hull ∧ (f.shift_origin v).hull_ats = f.hull_ats := by
  simp only [Fragment.rotate] at h
  split_ifs at h
  · injection h with h'
    subst h'
    exact ⟨rfl, rfl, rfl, rfl⟩

theorem transforms_leave_hull_w :
    fragC2.rotate Vec3.zero = some fragC2 ∧
    (fragC2.hull = fragC2.hull ∧ fragC2.hull_ats = fragC2.hull_ats ∧
      (fragC2.shift_origin ⟨1, 0, 0⟩).hull = fragC2.hull ∧
      (fragC2.shift_origin ⟨1, 0, 0⟩).hull_ats = fragC2.hull_ats) := by
  have hs : fragC2.rotate Vec3.zero = some fragC2 := by
    simp only [Fragment.rotate]
    rw [if_pos (by norm_num [Vec3.dot, Vec3.zero])]
    simp [fragC2, Vec3.zero, rotate_frag_point_zero]
  exact ⟨hs, transforms_leave_hull fragC2 Vec3.zero ⟨1, 0, 0⟩ fragC2 hs⟩

/-- Claim C8 (corrected, counterexample): on a hull-size tie the two role
splits disagree — `add_ligand` makes the FIRST fragment the one whose
rotation is searched (`s_frag`), but `align_frags` (called with `self =
f_frag`) flips and places the SECOND fragment, so no single fragment plays
the full "rotatable" role of the claim. -/
theorem roles_tie_mismatch_cex :
    (add_ligand_roles frag0 fragT2).1 = frag0 ∧
    (align_frags_roles (add_ligand_roles frag0 fragT2).2
      (add_ligand_roles frag0 fragT2).1).1 = fragT2 ∧
    frag0 ≠ fragT2 := by
  refine ⟨?_, ?_, ?_⟩
  · simp [add_ligand_roles, Fragment.size, frag0, fragT2]
  · simp [add_ligand_roles, align_frags_roles, Fragment.size, frag0, fragT2]
  · intro h
    have := congrArg (fun fr => fr.connect.x) h
    simp [frag0, fragT2] at this

/-- Claim C8 (amended): with strictly fewer hull points a fragment is both
the searched fragment (`s_frag` of `add_ligand`) and the flipped/aligned
fragment (`rot` of `align_frags`), and the other is the anchor; on a tie the
first argument is the searched one but `align_frags` flips the second
argument. -/
theorem roles_assignment (f1 f2 : Fragment) :
    (f1.size < f2.size →
      (add_ligand_roles f1 f2).1 = f1 ∧
      (align_frags_roles (add_ligand_roles f1 f2).2 (add_ligand_roles f1 f2).1).1 = f1) ∧
    (f2.size < f1.size →
      (add_ligand_roles f1 f2).1 = f2 ∧
      (align_frags_roles (add_ligand_roles f1 f2).2 (add_ligand_roles f1 f2).1).1 = f2) ∧
    (f1.size = f2.size →
      (add_ligand_roles f1 f2).1 = f1 ∧
      (align_frags_roles (add_ligand_roles f1 f2).2 (add_ligand_roles f1 f2).1).1 = f2) := by
  refine ⟨fun h => ?_, fun h => ?_, fun h => ?_⟩
  · simp only [add_ligand_roles, align_frags_roles]
    rw [if_pos h.le]
    dsimp only
    rw [if_neg (by omega)]
    exact ⟨rfl, rfl⟩
  · simp only [add_ligand_roles, align_frags_roles]
    rw [if_neg (by omega : ¬ f1.size ≤ f2.size)]
    dsimp only
    rw [if_neg (by omega)]
    exact ⟨rfl, rfl⟩
  · simp only [add_ligand_roles, align_frags_roles]
    rw [if_pos (by omega : f1.size ≤ f2.size)]
    dsimp only
    rw [if_pos (by omega)]
    exact ⟨rfl, rfl⟩

theorem roles_assignment_w :
    (frag0.size < fragB1.size ∧
      ((add_ligand_roles frag0 fragB1).1 = frag0 ∧
       (align_frags_roles (add_ligand_roles frag0 fragB1).2
         (add_ligand_roles frag0 fragB1).1).1 = frag0)) ∧
    (frag0.size = fragT2.size ∧
      ((add_ligand_roles frag0 fragT2).1 = frag0 ∧
       (align_frags_roles (add_ligand_roles frag0 fragT2).2
         (add_ligand_roles frag0 fragT2).1).1 = fragT2)) := by
  have h1 : frag0.size < fragB1.size := by simp [Fragment.size, frag0, fragB1]
  have h2 : frag0.size = fragT2.size := by simp [Fragment.size, frag0, fragT2]
  exact ⟨⟨h1, (roles_assignment frag0 fragB1).1 h1⟩,
         ⟨h2, (roles_assignment frag0 fragT2).2.2 h2⟩⟩

/-- Claim C1 (code bug): whenever two parameter vectors both pass the
square-root domain check, `score_rotation` returns the SAME energy for
both: the rotated hull is stored in the dead attribute `guess_hull` while
`calc_dists` reads the unrotated `s_frag.hull`, so the returned energy does
not depend on the rotation parameters at all — contradicting the claim that
the energy is computed from the rotated hull. -/
theorem score_rotation_ignores_params (f_field : ℝ → String → String → ℝ)
    (r1 r2 : Vec3) (s_frag f_frag : Fragment)
    (h1 : 0 ≤ 1 - Vec3.dot (expitV r1) (expitV r1))
    (h2 : 0 ≤ 1 - Vec3.dot (expitV r2) (expitV r2)) :
    (score_rotation f_field r1 s_frag f_frag).map Prod.fst =
      (score_rotation f_field r2 s_frag f_frag).map Prod.fst := by
  simp only [score_rotation, if_pos h1, if_pos h2, Option.map_some']
  rfl

theorem score_rotation_ignores_params_w :
    0 ≤ 1 - Vec3.dot (expitV x0_add_ligand) (expitV x0_add_ligand) ∧
    0 ≤ 1 - Vec3.dot (expitV ⟨-1, -1, -1⟩) (expitV ⟨-1, -1, -1⟩) ∧
    (score_rotation inter_MMFF94 x0_add_ligand frag0 frag0).map Prod.fst =
      (score_rotation inter_MMFF94 ⟨-1, -1, -1⟩ frag0 frag0).map Prod.fst := by
  have h1 : 0 ≤ 1 - Vec3.dot (expitV x0_add_ligand) (expitV x0_add_ligand) := by
    simp [expitV, x0_add_ligand, Vec3.dot, expit_zero]
    norm_num
  have h2 : 0 ≤ 1 - Vec3.dot (expitV ⟨-1, -1, -1⟩) (expitV ⟨-1, -1, -1⟩) := by
    have he : (2 : ℝ) < Real.exp 1 := by
      have := Real.exp_one_gt_d9; linarith
    have ha : expit (-1) ≤ 1 / 3 := by
      rw [expit]
      rw [div_le_div_iff (by positivity) (by norm_num)]
      simp only [neg_neg]
      linarith
    have hp : 0 < expit (-1) := expit_pos _
    simp only [expitV, Vec3.dot]
    nlinarith [ha, hp]
  exact ⟨h1, h2, score_rotation_ignores_params inter_MMFF94 x0_add_ligand
    ⟨-1, -1, -1⟩ frag0 frag0 h1 h2⟩

/-- Claim C6: rotating a fragment by parameters `p` with `|p|² < 1` and then
by `-p` restores the main coordinates and the connection point exactly (in
the real-number model; the implementation does the same up to floating
error). -/
theorem rotate_then_unrotate (f : Fragment) (p : Vec3) (h : Vec3.dot p p < 1) :
    (f.rotate p).bind (fun g => g.rotate (Vec3.neg p)) = some f := by
  have hd : 0 ≤ 1 - Vec3.dot p p := by linarith
  have hdn : Vec3.dot (Vec3.neg p) (Vec3.neg p) = Vec3.dot p p := by
    simp [Vec3.dot, Vec3.neg]
  have hcomp : ∀ v, rotate_frag_point (Vec3.neg p) (rotate_frag_point p v) = v :=
    fun v => rotate_frag_point_neg_cancel p v h.le
  have hl : ∀ (l : List Vec3),
      (l.map (rotate_frag_point p)).map (rotate_frag_point (Vec3.neg p)) = l := by
    intro l
    rw [List.map_map]
    have hfun : (rotate_frag_point (Vec3.neg p) ∘ rotate_frag_point p) = id :=
      funext fun v => hcomp v
    rw [hfun, List.map_id]
  simp only [Fragment.rotate, if_pos hd, Option.some_bind]
  rw [if_pos (by rw [hdn]; linarith)]
  cases f with
  | mk coord labs con hull hats gh =>
    simp [hl, hcomp]

theorem rotate_then_unrotate_w :
    Vec3.dot ⟨1 / 2, 0, 0⟩ (⟨1 / 2, 0, 0⟩ : Vec3) < 1 ∧
    (fragC6.rotate ⟨1 / 2, 0, 0⟩).bind
      (fun g => g.rotate (Vec3.neg ⟨1 / 2, 0, 0⟩)) = some fragC6 := by
  have h : Vec3.dot ⟨1 / 2, 0, 0⟩ (⟨1 / 2, 0, 0⟩ : Vec3) < 1 := by
    norm_num [Vec3.dot]
  exact ⟨h, rotate_then_unrotate fragC6 ⟨1 / 2, 0, 0⟩ h⟩

theorem zip_of_maps {α β γ : Type _} (f : α → β) (g : α → γ) (l : List α) :
    (l.map f).zip (l.map g) = l.map (fun a => (f a, g a)) := by
  induction l with
  | nil => rfl
  | cons a l ih => simp [ih]

theorem filterMap_guard {α β : Type _} (p : α → Prop) [DecidablePred p]
    (g : α → β) (l : List α) :
    l.filterMap (fun a => if p a then some (g a) else none) =
      (l.filter (fun a => decide (p a))).map g := by
  induction l with
  | nil => rfl
  | cons a l ih =>
      by_cases h : p a <;> simp [List.filterMap_cons, List.filter_cons, h, ih]

/-- Claim C7: `calc_dists` at cutoff 3.0 returns parallel collections (equal
length, with the k-th distance attached to the k-th label pair — their zip
equals the filtered pair list mapped to (distance, labels)), every returned
distance strictly exceeds the cutoff, and the retained entries are exactly
the cross-fragment hull pairs whose separation exceeds the cutoff
(`spec_pairs`, written from the spec's words). -/
theorem calc_dists_spec (s_frag f_frag : Fragment) :
    (calc_dists s_frag f_frag 3).1.length = (calc_dists s_frag f_frag 3).2.length ∧
    (∀ d ∈ (calc_dists s_frag f_frag 3).1, 3 < d) ∧
    (calc_dists s_frag f_frag 3).1.zip (calc_dists s_frag f_frag 3).2 =
      (spec_pairs s_frag f_frag 3).map (fun q =>
        (Real.sqrt (Vec3.dot (Vec3.sub q.1.1 q.2.1) (Vec3.sub q.1.1 q.2.1)),
         (q.1.2, q.2.2))) := by
  refine ⟨by simp [calc_dists], ?_, ?_⟩
  · intro d hd
    simp only [calc_dists, List.mem_map] at hd
    obtain ⟨e, he, rfl⟩ := hd
    simp only [List.mem_flatMap, List.mem_filterMap] at he
    obtain ⟨pi, hpi, pj, hpj, hsome⟩ := he
    by_cases h9 : Vec3.dot (Vec3.sub pi.1 pj.1) (Vec3.sub pi.1 pj.1) > 3 ^ 2
    · rw [if_pos h9] at hsome
      have he' := Option.some.inj hsome
      subst he'
      exact (Real.lt_sqrt (by norm_num)).mpr h9
    · rw [if_neg h9] at hsome
      exact Option.noConfusion hsome
  · simp only [calc_dists]
    rw [zip_of_maps]
    have key : ∀ (A : List (Vec3 × String)),
        (A.flatMap fun pi => (f_frag.hull.zip f_frag.hull_ats).filterMap (fun pj =>
          if Vec3.dot (Vec3.sub pi.1 pj.1) (Vec3.sub pi.1 pj.1) > (3 : ℝ) ^ 2
          then some (Real.sqrt (Vec3.dot (Vec3.sub pi.1 pj.1) (Vec3.sub pi.1 pj.1)),
                     (pi.2, pj.2))
          else none)) =
        ((A.product (f_frag.hull.zip f_frag.hull_ats)).filter (fun q =>
            decide ((3 : ℝ) ^ 2 <
              Vec3.dot (Vec3.sub q.1.1 q.2.1) (Vec3.sub q.1.1 q.2.1)))).map
          (fun q => (Real.sqrt (Vec3.dot (Vec3.sub q.1.1 q.2.1) (Vec3.sub q.1.1 q.2.1)),
                     (q.1.2, q.2.2))) := by
      intro A
      induction A with
      | nil => rfl
      | cons a A ih =>
          rw [List.flatMap_cons,
              show (a :: A).product (f_frag.hull.zip f_frag.hull_ats)
                  = (f_frag.hull.zip f_frag.hull_ats).map (fun b => (a, b))
                      ++ A.product (f_frag.hull.zip f_frag.hull_ats) from rfl,
              List.filter_append, List.map_append, ih]
          congr 1
          rw [filterMap_guard
                (fun pj => Vec3.dot (Vec3.sub a.1 pj.1) (Vec3.sub a.1 pj.1) > (3 : ℝ) ^ 2)
                _ (f_frag.hull.zip f_frag.hull_ats),
              List.filter_map, List.map_map]
          rfl
    simp only [spec_pairs]
    rw [← key]
    simp

/-- Claim C9 (amended): the two validation checks behave as claimed and fire
before any geometry work — zero or several connector labels give the
connector-count `ValidationError`, an empty remaining coordinate list gives
the no-coordinates `ValidationError` — and when validation passes and the
orientation step succeeds, construction succeeds.  (The claim's unconditional
success is corrected by the counterexample: orientation can fail.) -/
theorem mkFragment_validation (coord : List Vec3) (at_labels : List String) :
    ((at_labels.filter (fun l => l = "X")).length ≠ 1 →
      mkFragment coord at_labels = .error "ValidationError: connector count") ∧
    ((at_labels.filter (fun l => l = "X")).length = 1 →
      (coord.eraseIdx (at_labels.findIdx (fun l => l = "X"))).length = 0 →
      mkFragment coord at_labels = .error "ValidationError: no coordinates") ∧
    (∀ g, (at_labels.filter (fun l => l = "X")).length = 1 →
      (coord.eraseIdx (at_labels.findIdx (fun l => l = "X"))).length ≠ 0 →
      Fragment.orient_frag
        ⟨coord.eraseIdx (at_labels.findIdx (fun l => l = "X")),
         at_labels.eraseIdx (at_labels.findIdx (fun l => l = "X")),
         coord.getD (at_labels.findIdx (fun l => l = "X")) Vec3.zero, [], [], []⟩
        = some g →
      mkFragment coord at_labels = .ok g) := by
  refine ⟨fun h => ?_, fun h1 h2 => ?_, fun g h1 h2 h3 => ?_⟩
  · simp only [mkFragment]
    rw [if_neg h]
  · simp only [mkFragment]
    rw [if_pos h1, if_neg (by omega)]
  · simp only [mkFragment]
    rw [if_pos h1, if_pos h2, h3]

/-- Claim C9 (corrected, counterexample): a parsed input with exactly one
connector label and two remaining atoms on which construction nevertheless
fails — the orientation step computes `sqrt` of the negative value
`(1 - (1/2)/(1/4))/2 = -1/2` (Python's `math domain error`), so construction
does not succeed for every validated input. -/
theorem construction_sqrt_fail_cex :
    (cexC9_labels.filter (fun l => l = "X")).length = 1 ∧
    (cexC9_coord.eraseIdx (cexC9_labels.findIdx (fun l => l = "X"))).length = 2 ∧
    mkFragment cexC9_coord cexC9_labels = .error "math domain error" := by
  have hfind : cexC9_labels.findIdx (fun l => l = "X") = 0 := by
    simp [cexC9_labels, List.findIdx_cons]
  have hfil : (cexC9_labels.filter (fun l => l = "X")).length = 1 := by
    simp [cexC9_labels]
  have horient :
      Fragment.orient_frag ⟨[⟨1, 0, 0⟩, ⟨-1, 0, 0⟩], ["H", "H"], ⟨0, 0, 1/2⟩, [], [], []⟩
        = none := by
    simp only [Fragment.orient_frag, Fragment.shift_origin, vmean, Vec3.dot, Vec3.sub, zvec]
    norm_num [precision]
  refine ⟨hfil, ?_, ?_⟩
  · rw [hfind]
    simp [cexC9_coord]
  · simp only [mkFragment]
    rw [if_pos hfil, hfind]
    simp only [cexC9_coord, cexC9_labels]
    norm_num
    rw [horient]

theorem mkFragment_validation_w :
    mkFragment [] [] = .error "ValidationError: connector count" ∧
    mkFragment [⟨1, 1, 1⟩] ["X"] = .error "ValidationError: no coordinates" ∧
    mkFragment [⟨0, 0, 0⟩, ⟨1, 0, 0⟩, ⟨-1, 0, 0⟩] ["X", "H", "H"]
      = .ok ⟨[⟨1, 0, 0⟩, ⟨-1, 0, 0⟩], ["H", "H"], ⟨0, 0, 0⟩, [], [], []⟩ := by
  refine ⟨(mkFragment_validation [] []).1 (by simp),
          (mkFragment_validation [⟨1, 1, 1⟩] ["X"]).2.1 (by simp)
            (by simp [List.findIdx_cons]),
          (mkFragment_validation [⟨0, 0, 0⟩, ⟨1, 0, 0⟩, ⟨-1, 0, 0⟩] ["X", "H", "H"]).2.2
            _ (by simp) (by simp [List.findIdx_cons]) ?_⟩
  simp only [List.findIdx_cons, decide_eq_true_eq]
  norm_num
  simp only [Fragment.orient_frag, Fragment.shift_origin, vmean, Vec3.dot, Vec3.sub,
    Vec3.zero, zvec]
  norm_num [precision]

/-- Claim C5 (corrected, counterexample): one application of `orient_frag`
does NOT bring the connector within tolerance of the z axis in general: for
the unit connector `(24/25, 0, 7/25)` of `fragC5cex` the oriented
connector keeps an x component above `1/20` (the rotated connector is still
a unit vector, so this is a genuine angular deviation), far beyond the
`1e-5` tolerance. -/
theorem orient_not_colinear_cex :
    1 / 20 < ((Fragment.orient_frag fragC5cex).map (fun g => g.connect.x)).getD 0 ∧
    precision < 1 / 20 := by
  constructor
  · have hm : vmean fragC5cex.coord = ⟨0, 0, 0⟩ := by
      simp [vmean, fragC5cex]
    have hsh : fragC5cex.shift_origin (vmean fragC5cex.coord) =
        ⟨[⟨1, 0, 0⟩, ⟨-1, 0, 0⟩], ["H", "H"], ⟨24/25, 0, 7/25⟩, [], [], []⟩ := by
      rw [hm]
      simp [fragC5cex, Fragment.shift_origin, Vec3.sub]
    simp only [Fragment.orient_frag]
    rw [hsh]
    rw [if_neg (by norm_num [Vec3.dot, precision])]
    rw [if_neg (by norm_num [Vec3.dot, zvec])]
    have hsin : Real.sqrt ((1 - Vec3.dot (⟨24/25, 0, 7/25⟩ : Vec3) zvec /
        Vec3.dot (⟨24/25, 0, 7/25⟩ : Vec3) ⟨24/25, 0, 7/25⟩) / 2) = 3 / 5 := by
      rw [show ((1 - Vec3.dot (⟨24/25, 0, 7/25⟩ : Vec3) zvec /
          Vec3.dot (⟨24/25, 0, 7/25⟩ : Vec3) ⟨24/25, 0, 7/25⟩) / 2 : ℝ) = (3 / 5) ^ 2
        from by norm_num [Vec3.dot, zvec]]
      exact Real.sqrt_sq (by norm_num)
    have hrots : Vec3.smul (Real.sqrt ((1 - Vec3.dot (⟨24/25, 0, 7/25⟩ : Vec3) zvec /
        Vec3.dot (⟨24/25, 0, 7/25⟩ : Vec3) ⟨24/25, 0, 7/25⟩) / 2))
        (Vec3.smul (1 / Vec3.dot (⟨24/25, 0, 7/25⟩ : Vec3) ⟨24/25, 0, 7/25⟩)
          (Vec3.cross zvec ⟨24/25, 0, 7/25⟩)) = ⟨0, 72/125, 0⟩ := by
      rw [hsin]
      simp [Vec3.smul, Vec3.cross, Vec3.dot, zvec]
      norm_num
    rw [hrots]
    simp only [Fragment.rotate]
    rw [if_pos (by norm_num [Vec3.dot])]
    simp only [Option.map_some', Option.getD_some]
    obtain ⟨A, hA_def⟩ :
        ∃ A, A = Real.sqrt (1 - Vec3.dot (⟨0, 72/125, 0⟩ : Vec3) ⟨0, 72/125, 0⟩) :=
      ⟨_, rfl⟩
    have hA2 : A ^ 2 = 10441 / 15625 := by
      rw [hA_def, Real.sq_sqrt (by norm_num [Vec3.dot])]
      norm_num [Vec3.dot]
    have hA0 : 0 ≤ A := hA_def ▸ Real.sqrt_nonneg _
    simp only [rotate_frag_point, ← hA_def]
    simp only [Vec3.dot]
    norm_num
    nlinarith [hA2, hA0, sq_nonneg (A - 409/500)]
  · norm_num [precision]

theorem rotate_frag_point_zero_vec (r : Vec3) :
    rotate_frag_point r ⟨0, 0, 0⟩ = ⟨0, 0, 0⟩ := by
  simp only [rotate_frag_point]
  ext <;> simp

theorem sum_map_sub (l : List Vec3) (g : Vec3 → ℝ) (c : ℝ) :
    (l.map (fun p => g p - c)).sum = (l.map g).sum - l.length * c := by
  induction l with
  | nil => simp
  | cons a l ih =>
      simp [ih]
      ring

theorem sum_map_lin (l : List Vec3) (al be ga : ℝ) :
    (l.map (fun p => al * p.x + be * p.y + ga * p.z)).sum =
      al * (l.map Vec3.x).sum + be * (l.map Vec3.y).sum + ga * (l.map Vec3.z).sum := by
  induction l with
  | nil => simp
  | cons a l ih =>
      simp [ih]
      ring

theorem vmean_center (l : List Vec3) :
    vmean (l.map (fun p => Vec3.sub p (vmean l))) = ⟨0, 0, 0⟩ := by
  rcases eq_or_ne l [] with rfl | hl
  · simp [vmean]
  · have hn : (l.length : ℝ) ≠ 0 :=
      Nat.cast_ne_zero.mpr (by simpa [List.length_eq_zero] using hl)
    simp only [vmean, Vec3.sub, List.map_map, Function.comp, List.length_map]
    ext
    · show (l.map fun p => p.x - (l.map Vec3.x).sum / l.length).sum / l.length = 0
      rw [sum_map_sub l Vec3.x]
      field_simp
    · show (l.map fun p => p.y - (l.map Vec3.y).sum / l.length).sum / l.length = 0
      rw [sum_map_sub l Vec3.y]
      field_simp
    · show (l.map fun p => p.z - (l.map Vec3.z).sum / l.length).sum / l.length = 0
      rw [sum_map_sub l Vec3.z]
      field_simp

theorem sum_x_map_rfp (r : Vec3) (l : List Vec3) :
    (l.map (fun p => (rotate_frag_point r p).x)).sum =
      (1 - Vec3.dot r r + r.x * r.x - r.y * r.y - r.z * r.z) * (l.map Vec3.x).sum
      + (2 * (r.x * r.y + Real.sqrt (1 - Vec3.dot r r) * r.z)) * (l.map Vec3.y).sum
      + (2 * (r.x * r.z - Real.sqrt (1 - Vec3.dot r r) * r.y)) * (l.map Vec3.z).sum := by
  induction l with
  | nil => simp
  | cons a l ih =>
      simp only [List.map_cons, List.sum_cons]
      rw [ih]
      simp only [rotate_frag_point]
      ring

theorem sum_y_map_rfp (r : Vec3) (l : List Vec3) :
    (l.map (fun p => (rotate_frag_point r p).y)).sum =
      (2 * (r.x * r.y - Real.sqrt (1 - Vec3.dot r r) * r.z)) * (l.map Vec3.x).sum
      + (1 - Vec3.dot r r + r.y * r.y - r.x * r.x - r.z * r.z) * (l.map Vec3.y).sum
      + (2 * (r.y * r.z + Real.sqrt (1 - Vec3.dot r r) * r.x)) * (l.map Vec3.z).sum := by
  induction l with
  | nil => simp
  | cons a l ih =>
      simp only [List.map_cons, List.sum_cons]
      rw [ih]
      simp only [rotate_frag_point]
      ring

theorem sum_z_map_rfp (r : Vec3) (l : List Vec3) :
    (l.map (fun p => (rotate_frag_point r p).z)).sum =
      (2 * (r.x * r.z + Real.sqrt (1 - Vec3.dot r r) * r.y)) * (l.map Vec3.x).sum
      + (2 * (r.y * r.z - Real.sqrt (1 - Vec3.dot r r) * r.x)) * (l.map Vec3.y).sum
      + (1 - Vec3.dot r r + r.z * r.z - r.x * r.x - r.y * r.y) * (l.map Vec3.z).sum := by
  induction l with
  | nil => simp
  | cons a l ih =>
      simp only [List.map_cons, List.sum_cons]
      rw [ih]
      simp only [rotate_frag_point]
      ring

theorem vmean_map_rfp (r : Vec3) (l : List Vec3) :
    vmean (l.map (rotate_frag_point r)) = rotate_frag_point r (vmean l) := by
  simp only [vmean, List.length_map, List.map_map, Function.comp_def]
  ext
  · show (l.map (fun p => (rotate_frag_point r p).x)).sum / l.length = _
    rw [sum_x_map_rfp]
    simp only [rotate_frag_point]
    ring
  · show (l.map (fun p => (rotate_frag_point r p).y)).sum / l.length = _
    rw [sum_y_map_rfp]
    simp only [rotate_frag_point]
    ring
  · show (l.map (fun p => (rotate_frag_point r p).z)).sum / l.length = _
    rw [sum_z_map_rfp]
    simp only [rotate_frag_point]
    ring

theorem shift_origin_zero_vec (f : Fragment) : f.shift_origin ⟨0, 0, 0⟩ = f := by
  cases f with
  | mk coord labs con hull hats gh =>
      simp [Fragment.shift_origin, Vec3.sub]

theorem orient_core_rot (cx cy cz : ℝ) (hc : cx * cx + cy * cy = 1) (hcz : cz = 0) :
    rotate_frag_point (Vec3.smul (Real.sqrt (1 / 2)) ⟨-cy, cx, 0⟩) ⟨cx, cy, cz⟩
      = ⟨0, 0, 1⟩ := by
  subst hcz
  simp only [rotate_frag_point, Vec3.smul, Vec3.dot]
  set t := Real.sqrt (1 / 2) with ht_def
  have ht : t ^ 2 = 1 / 2 := by
    rw [ht_def]
    exact Real.sq_sqrt (by norm_num)
  rw [show (1 - (t * -cy * (t * -cy) + t * cx * (t * cx) + t * 0 * (t * 0))) = (1 : ℝ) / 2
    from by linear_combination (-(cx * cx + cy * cy)) * ht - (1 / 2) * hc]
  rw [← ht_def]
  ext
  · show _ = (0 : ℝ)
    linear_combination (-cx * (cx * cx + cy * cy)) * ht + (-cx / 2) * hc
  · show _ = (0 : ℝ)
    linear_combination (-cy * (cx * cx + cy * cy)) * ht + (-cy / 2) * hc
  · show _ = (1 : ℝ)
    linear_combination (2 * (cx * cx + cy * cy)) * ht + 1 * hc

theorem orient_fixed_of_aligned (g : Fragment) (hconn : g.connect = ⟨0, 0, 1⟩)
    (hmean : vmean g.coord = ⟨0, 0, 0⟩) : Fragment.orient_frag g = some g := by
  simp only [Fragment.orient_frag, Fragment.shift_origin, hmean, hconn]
  rw [show Vec3.sub ⟨0, 0, 1⟩ ⟨0, 0, 0⟩ = (⟨0, 0, 1⟩ : Vec3) from by simp [Vec3.sub]]
  rw [show Vec3.dot ⟨0, 0, 1⟩ (⟨0, 0, 1⟩ : Vec3) = 1 from by norm_num [Vec3.dot]]
  rw [if_neg (by norm_num [precision])]
  rw [show Vec3.dot ⟨0, 0, 1⟩ zvec = (1 : ℝ) from by norm_num [Vec3.dot, zvec]]
  rw [if_neg (by norm_num)]
  rw [show Vec3.cross zvec ⟨0, 0, 1⟩ = (⟨0, 0, 0⟩ : Vec3) from by simp [Vec3.cross, zvec]]
  rw [show ((1 - (1 : ℝ) / 1) / 2) = 0 from by norm_num]
  rw [Real.sqrt_zero]
  rw [show Vec3.smul 0 (Vec3.smul (1 / 1) ⟨0, 0, 0⟩) = (⟨0, 0, 0⟩ : Vec3) from by
    simp [Vec3.smul]]
  simp only [Fragment.rotate]
  rw [if_pos (by norm_num [Vec3.dot])]
  rw [show rotate_frag_point ⟨0, 0, 0⟩ = fun v => v from funext rotate_frag_point_zero]
  rw [show (fun p => Vec3.sub p ⟨0, 0, 0⟩) = fun (p : Vec3) => p from
    funext fun p => by simp [Vec3.sub]]
  simp only [List.map_id']
  rw [← hconn]

/-- Claim C5 (amended): `orient_frag` does align the connector with the
reference axis — exactly, and idempotently (a second application leaves the
fragment unchanged) — in the special case where the recentred connector is a
unit vector orthogonal to the axis; in general the alignment fails (see the
counterexample), so the claimed tolerance-1e-5 colinearity after one
application does not hold for every fragment. -/
theorem orient_aligns_special (f : Fragment)
    (hz : (Vec3.sub f.connect (vmean f.coord)).z = 0)
    (hu : Vec3.dot (Vec3.sub f.connect (vmean f.coord))
            (Vec3.sub f.connect (vmean f.coord)) = 1) :
    (Fragment.orient_frag f).map (fun g => g.connect) = some ⟨0, 0, 1⟩ ∧
    (Fragment.orient_frag f).bind Fragment.orient_frag = Fragment.orient_frag f := by
  set m := vmean f.coord with hm_def
  set c := Vec3.sub f.connect m with hc_def
  have hcc : c.x * c.x + c.y * c.y = 1 := by
    have h := hu
    simp only [Vec3.dot] at h
    rw [hz] at h
    linarith
  have ht : Real.sqrt (1 / 2) ^ 2 = 1 / 2 := Real.sq_sqrt (by norm_num)
  have h1 : Fragment.orient_frag f = some ⟨(f.coord.map (fun p => Vec3.sub p m)).map
      (rotate_frag_point (Vec3.smul (Real.sqrt (1 / 2)) ⟨-c.y, c.x, 0⟩)),
      f.at_labels, ⟨0, 0, 1⟩, f.hull, f.hull_ats, f.guess_hull⟩ := by
    simp only [Fragment.orient_frag, Fragment.shift_origin]
    rw [← hm_def, ← hc_def, hu]
    rw [if_neg (by norm_num [precision])]
    rw [show Vec3.dot c zvec = c.z from by simp [Vec3.dot, zvec], hz]
    rw [if_neg (by norm_num)]
    rw [show ((1 - (0 : ℝ) / 1) / 2) = 1 / 2 from by norm_num]
    rw [show Vec3.smul (1 / 1) (Vec3.cross zvec c) = ⟨-c.y, c.x, 0⟩ from by
      simp [Vec3.smul, Vec3.cross, zvec]]
    simp only [Fragment.rotate]
    have hdotr : Vec3.dot (Vec3.smul (Real.sqrt (1 / 2)) ⟨-c.y, c.x, 0⟩)
        (Vec3.smul (Real.sqrt (1 / 2)) ⟨-c.y, c.x, 0⟩) = 1 / 2 := by
      simp only [Vec3.dot, Vec3.smul]
      linear_combination (c.x * c.x + c.y * c.y) * ht + (1 / 2) * hcc
    rw [if_pos (by rw [hdotr]; norm_num)]
    have hrot : rotate_frag_point (Vec3.smul (Real.sqrt (1 / 2)) ⟨-c.y, c.x, 0⟩) c
        = ⟨0, 0, 1⟩ := orient_core_rot c.x c.y c.z hcc hz
    rw [hrot]
  have hmean2 : vmean ((f.coord.map (fun p => Vec3.sub p m)).map
      (rotate_frag_point (Vec3.smul (Real.sqrt (1 / 2)) ⟨-c.y, c.x, 0⟩))) = ⟨0, 0, 0⟩ := by
    rw [vmean_map_rfp, hm_def, vmean_center]
    exact rotate_frag_point_zero_vec _
  refine ⟨?_, ?_⟩
  · rw [h1]
    simp only [Option.map_some']
  · rw [h1]
    simp only [Option.some_bind]
    exact orient_fixed_of_aligned _ rfl hmean2

theorem orient_aligns_special_w :
    (Vec3.sub fragC5w.connect (vmean fragC5w.coord)).z = 0 ∧
    Vec3.dot (Vec3.sub fragC5w.connect (vmean fragC5w.coord))
      (Vec3.sub fragC5w.connect (vmean fragC5w.coord)) = 1 ∧
    ((Fragment.orient_frag fragC5w).map (fun g => g.connect) = some ⟨0, 0, 1⟩ ∧
     (Fragment.orient_frag fragC5w).bind Fragment.orient_frag
       = Fragment.orient_frag fragC5w) := by
  have hz : (Vec3.sub fragC5w.connect (vmean fragC5w.coord)).z = 0 := by
    simp [fragC5w, vmean, Vec3.sub]
  have hu : Vec3.dot (Vec3.sub fragC5w.connect (vmean fragC5w.coord))
      (Vec3.sub fragC5w.connect (vmean fragC5w.coord)) = 1 := by
    simp [fragC5w, vmean, Vec3.sub, Vec3.dot]
  exact ⟨hz, hu, orient_aligns_special fragC5w hz hu⟩
